import Mathlib

/-! Shallow embedding of the Larry David Bot posting pipeline
(larry_david_bot.py): the recent-post ledger, quote generation with a
fallback pool, the unique-quote resolver loop, and the per-platform publish
operations, together with proofs of the specified properties. -/

namespace LarryDavidBot

/-- Embeds self.max_cache_size = 100 (keep last 100 posts to avoid repeats). -/
def max_cache_size : Nat := 100

/-- Embeds max_attempts = 10, the retry bound of the unique-quote loop inside
post_quote. -/
def max_attempts : Nat := 10

/-- Embeds the fallback_quotes list of get_fallback_quote. -/
def fallback_quotes : List String :=
  [ "You know what I hate? When you're at a restaurant and the server says 'Enjoy your meal' and you say 'You too'.",
    "I don't trust anyone who's nice to me but rude to the waiter. Because they're just waiting until they can be rude to me too.",
    "I don't like to make plans for the day because then the word 'premeditated' gets thrown around in the courtroom.",
    "You know what's interesting about politics? It's not interesting.",
    "I'm not a fighter, but I am a big fan of the silent treatment." ]

/-- Embeds get_fallback_quote: random.choice(fallback_quotes). The randomness
consumed by random.choice is an index into the pool, supplied here as an
arbitrary natural number r reduced modulo the pool size. -/
def get_fallback_quote (r : Nat) : String :=
  fallback_quotes.getD (r % fallback_quotes.length) ""

/-- Behaviour of one call to the generative backend inside
generate_larry_quote (model.generate_content followed by the response.text
access): it raises some exception, or it yields a response text. -/
inductive BackendResult where
  | raises : BackendResult
  | returns : String → BackendResult

/-- Embeds str.strip() as used on response.text: remove whitespace characters
from both ends of the string. -/
def strip (s : String) : String :=
  String.mk (((s.data.dropWhile Char.isWhitespace).reverse.dropWhile Char.isWhitespace).reverse)

/-- Embeds the clean-up generate_larry_quote applies to the backend text:
quote = response.text.strip(); if the stripped quote starts and ends with a
double-quote character, quote = quote[1:-1]. -/
def clean_quote (t : String) : String :=
  let quote := strip t
  if quote.data.head? = some '"' ∧ quote.data.getLast? = some '"' then
    String.mk ((quote.data.drop 1).dropLast)
  else quote

/-- Embeds generate_larry_quote: the try-body returns the cleaned backend text,
and the except clause (catching every Exception) returns get_fallback_quote().
r is the randomness consumed by that fallback choice. -/
def generate_larry_quote (backend : BackendResult) (r : Nat) : String :=
  match backend with
  | .raises => get_fallback_quote r
  | .returns t => clean_quote t

/-- Embeds is_duplicate: quote in self.recent_posts (exact membership). -/
def is_duplicate (recent_posts : List String) (quote : String) : Bool :=
  recent_posts.contains quote

/-- The bot's ledger state: self.recent_posts in memory, and the contents of
the recent_posts.json cache file (disk). -/
structure BotState where
  recent_posts : List String
  disk : List String

/-- Embeds load_recent_posts: none models a missing cache file or a read/parse
exception (caught and logged, returning []); some l models a successfully
parsed JSON list, which is returned as-is. -/
def load_recent_posts (storage : Option (List String)) : List String :=
  match storage with
  | none => []
  | some l => l

/-- Embeds save_recent_posts: json.dump of recent_posts into the cache file;
any exception is caught and logged, leaving the file contents as they were. -/
def save_recent_posts (write_ok : Bool) (st : BotState) : BotState :=
  if write_ok then { st with disk := st.recent_posts } else st

/-- The ledger mutation post_to_bluesky performs after a successful publish:
self.recent_posts.append(text); if len(self.recent_posts) > self.max_cache_size:
self.recent_posts = self.recent_posts[-self.max_cache_size:]. -/
def record (recent_posts : List String) (text : String) : List String :=
  let appended := recent_posts ++ [text]
  if appended.length > max_cache_size then
    appended.drop (appended.length - max_cache_size)
  else appended

/-- Embeds post_to_bluesky: publish_ok tells whether the RichText preparation
and client.send_post succeed; on success the text is recorded in the ledger,
the cache is saved (save failures are swallowed inside save_recent_posts) and
True is returned; any exception is caught by the bare except clause and yields
False with no mutation. -/
def post_to_bluesky (publish_ok write_ok : Bool) (st : BotState) (text : String) :
    Bool × BotState :=
  if publish_ok then
    (true, save_recent_posts write_ok { st with recent_posts := record st.recent_posts text })
  else
    (false, st)

/-- Behaviour of the twitter_client.create_tweet call inside post_to_twitter:
a response whose truthiness chain (response, response.data, the tweet id in
response.data) holds or not, a tweepy.TweepyException carrying an optional
HTTP status code, or an exception of any other type. -/
inductive TwitterCallResult where
  | response : Bool → TwitterCallResult
  | tweepy_exc : Option Nat → TwitterCallResult
  | other_exc : TwitterCallResult
  deriving DecidableEq

/-- Embeds post_to_twitter: when no twitter client is configured it skips and
returns False; otherwise the quote is truncated to 280 characters and tweeted;
a response with a tweet id yields True, a response without one yields False,
and a tweepy.TweepyException is caught (logged by status class) and yields
False. An exception of any other type is not caught here and propagates,
modelled as Except.error. -/
def post_to_twitter (twitter_client : Bool) (call : TwitterCallResult) (quote : String) :
    Except Unit Bool :=
  if !twitter_client then Except.ok false
  else
    let _tweet_text := quote.take 280
    match call with
    | .response got_id => if got_id then Except.ok true else Except.ok false
    | .tweepy_exc _ => Except.ok false
    | .other_exc => Except.error ()

/-- Embeds the unique-quote loop of post_quote, with the remaining iteration
count as explicit fuel: for attempt in range(max_attempts): quote = gen(k);
if not is_duplicate(quote): break; and the for-else arm falls back to fb.
gen k is the value returned by the k-th generate_larry_quote call (these calls
never raise). The result pairs the chosen quote with the total number of
generate calls made. -/
def resolve_quote (gen : Nat → String) (ledger : List String) (fb : String) :
    Nat → Nat → String × Nat
  | k, 0 => (fb, k)
  | k, fuel + 1 =>
    if is_duplicate ledger (gen k) then resolve_quote gen ledger fb (k + 1) fuel
    else (gen k, k + 1)

/-- The resolver exactly as post_quote runs it: max_attempts iterations,
starting from the first generate call. -/
def resolve (gen : Nat → String) (ledger : List String) (fb : String) : String × Nat :=
  resolve_quote gen ledger fb 0 max_attempts

/-- One posting cycle's external behaviour: the backend outcome and the choice
randomness of each generate call, the fallback randomness of the exhaustion
arm, whether the Bluesky publish and the cache write succeed, and the Twitter
configuration and call outcome. -/
structure CycleEnv where
  backend : Nat → BackendResult
  rand : Nat → Nat
  fb_rand : Nat
  publish_ok : Bool
  write_ok : Bool
  twitter_client : Bool
  twitter_call : TwitterCallResult

/-- Embeds post_quote: resolve a unique quote against the current ledger, post
it to Bluesky, then post it to Twitter; the surrounding try returns True when
the body runs to completion and False when an exception reaches it. In this
embedding the only operation that can raise is post_to_twitter (every other
step handles its own failures). -/
def post_quote (env : CycleEnv) (st : BotState) : Bool × BotState :=
  let gen := fun k => generate_larry_quote (env.backend k) (env.rand k)
  let quote := (resolve gen st.recent_posts (get_fallback_quote env.fb_rand)).1
  let bs := post_to_bluesky env.publish_ok env.write_ok st quote
  match post_to_twitter env.twitter_client env.twitter_call quote with
  | Except.error _ => (false, bs.2)
  | Except.ok _ => (true, bs.2)

/-- The ledger contents after a sequence of record calls starting from an
empty ledger. -/
def record_all (texts : List String) : List String :=
  texts.foldl record []

/-! Helper lemmas about the ledger. -/

theorem is_duplicate_iff (l : List String) (q : String) :
    is_duplicate l q = true ↔ q ∈ l := by
  simp [is_duplicate]

theorem record_eq_drop (l : List String) (t : String) :
    record l t = (l ++ [t]).drop (l.length + 1 - max_cache_size) := by
  unfold record
  simp only [List.length_append, List.length_singleton]
  split
  · rfl
  · next h =>
    have hz : l.length + 1 - max_cache_size = 0 := by omega
    simp [hz]

theorem record_length (l : List String) (t : String) :
    (record l t).length = min (l.length + 1) max_cache_size := by
  rw [record_eq_drop]
  simp only [List.length_drop, List.length_append, List.length_singleton]
  omega

theorem record_suffix (l : List String) (t : String) :
    record l t = l.drop (l.length + 1 - max_cache_size) ++ [t] := by
  rw [record_eq_drop]
  exact List.drop_append_of_le_length (by simp only [max_cache_size]; omega)

theorem mem_record_self (l : List String) (t : String) : t ∈ record l t := by
  rw [record_suffix]
  exact List.mem_append_right _ (List.mem_singleton.mpr rfl)

theorem record_getLast (l : List String) (t : String) :
    (record l t).getLast? = some t := by
  rw [record_suffix]
  exact List.getLast?_concat _

theorem foldl_record_eq (ts : List String) :
    ∀ acc : List String, acc.length ≤ max_cache_size →
      ts.foldl record acc = (acc ++ ts).drop ((acc ++ ts).length - max_cache_size) := by
  induction ts with
  | nil =>
    intro acc h
    simp [Nat.sub_eq_zero_of_le h]
  | cons t rest ih =>
    intro acc h
    have hrec : (record acc t).length ≤ max_cache_size := by
      rw [record_length]; omega
    have step : (t :: rest).foldl record acc = rest.foldl record (record acc t) := rfl
    have hlen : (record acc t ++ rest).length - max_cache_size
        = min (acc.length + 1) max_cache_size + rest.length - max_cache_size := by
      simp [List.length_append, record_length]
    rw [step, ih _ hrec, hlen, record_eq_drop]
    rw [← List.drop_append_of_le_length
      (show acc.length + 1 - max_cache_size ≤ (acc ++ [t]).length by
        simp only [List.length_append, List.length_singleton]; omega)]
    rw [List.drop_drop]
    have hassoc : acc ++ [t] ++ rest = acc ++ t :: rest := by simp
    rw [hassoc]
    have hnum : acc.length + 1 - max_cache_size
        + (min (acc.length + 1) max_cache_size + rest.length - max_cache_size)
        = (acc ++ t :: rest).length - max_cache_size := by
      simp only [List.length_append, List.length_cons]
      omega
    rw [hnum]

theorem record_all_eq (ts : List String) :
    record_all ts = ts.drop (ts.length - max_cache_size) := by
  have h := foldl_record_eq ts [] (by simp [max_cache_size])
  simpa [record_all] using h

/-! Helper lemmas about the resolver loop. -/

theorem resolve_quote_exhaust (gen : Nat → String) (ledger : List String) (fb : String) :
    ∀ (fuel k : Nat), (∀ j, j < fuel → gen (k + j) ∈ ledger) →
      resolve_quote gen ledger fb k fuel = (fb, k + fuel) := by
  intro fuel
  induction fuel with
  | zero => intro k _; rfl
  | succ fuel ih =>
    intro k hdup
    have h0 : gen k ∈ ledger := by simpa using hdup 0 (by omega)
    have hd : is_duplicate ledger (gen k) = true := (is_duplicate_iff _ _).mpr h0
    simp only [resolve_quote, hd, if_true]
    have := ih (k + 1) (fun j hj => by
      have := hdup (j + 1) (by omega)
      simpa [Nat.add_assoc, Nat.add_comm 1 j] using this)
    rw [this]
    congr 1
    omega

theorem resolve_quote_fresh (gen : Nat → String) (ledger : List String) (fb : String) :
    ∀ (fuel k i : Nat), i < fuel →
      (∀ j, j < i → gen (k + j) ∈ ledger) → gen (k + i) ∉ ledger →
      resolve_quote gen ledger fb k fuel = (gen (k + i), k + i + 1) := by
  intro fuel
  induction fuel with
  | zero => intro k i hi; omega
  | succ fuel ih =>
    intro k i hi hdup hfresh
    match i with
    | 0 =>
      have h0 : gen k ∉ ledger := by simpa using hfresh
      have hd : is_duplicate ledger (gen k) = false := by
        cases hval : is_duplicate ledger (gen k)
        · rfl
        · exact absurd ((is_duplicate_iff _ _).mp hval) h0
      simp [resolve_quote, hd]
    | i + 1 =>
      have h0 : gen k ∈ ledger := by simpa using hdup 0 (by omega)
      have hd : is_duplicate ledger (gen k) = true := (is_duplicate_iff _ _).mpr h0
      simp only [resolve_quote, hd, if_true]
      have := ih (k + 1) i (by omega)
        (fun j hj => by
          have := hdup (j + 1) (by omega)
          simpa [Nat.add_assoc, Nat.add_comm 1 j] using this)
        (by
          have heq : k + 1 + i = k + (i + 1) := by omega
          rw [heq]; exact hfresh)
      rw [this]
      have heq : k + 1 + i = k + (i + 1) := by omega
      rw [heq]

theorem get_fallback_quote_mem (r : Nat) :
    get_fallback_quote r ∈ fallback_quotes := by
  have hlen : fallback_quotes.length = 5 := by decide
  have h5 : r % fallback_quotes.length = 0 ∨ r % fallback_quotes.length = 1 ∨
      r % fallback_quotes.length = 2 ∨ r % fallback_quotes.length = 3 ∨
      r % fallback_quotes.length = 4 := by
    have := Nat.mod_lt r (show 0 < fallback_quotes.length by decide)
    omega
  unfold get_fallback_quote
  rcases h5 with h | h | h | h | h <;> rw [h] <;> decide

/-! The claims. -/

/-- C1: for every sequence of record calls starting from an empty ledger, the
ledger is exactly the suffix of the most-recently-recorded max_cache_size
texts, its length never exceeds max_cache_size (and each single record leaves
length min (previous + 1) max_cache_size, so appending past the bound trims to
exactly max_cache_size, evicting the oldest front entries), and is_duplicate is
an exact membership test over precisely that suffix. -/
theorem ledger_fifo (ts : List String) :
    record_all ts = ts.drop (ts.length - max_cache_size) ∧
    (record_all ts).length = min ts.length max_cache_size ∧
    (∀ l t, (record l t).length = min (l.length + 1) max_cache_size) ∧
    ∀ q, is_duplicate (record_all ts) q = true ↔ q ∈ ts.drop (ts.length - max_cache_size) := by
  refine ⟨record_all_eq ts, ?_, fun l t => record_length l t, fun q => ?_⟩
  · rw [record_all_eq]
    simp only [List.length_drop]
    omega
  · rw [record_all_eq]
    exact is_duplicate_iff _ _

/-- C2: the resolver makes at most max_attempts generate calls and returns the
first candidate not contained in the ledger: if the candidates before index k
are all ledgered and the candidate of call k (k < max_attempts) is fresh, the
resolver returns exactly that candidate after k + 1 generate calls. -/
theorem resolver_first_fresh (gen : Nat → String) (ledger : List String) (fb : String)
    (k : Nat) (hk : k < max_attempts)
    (hdup : ∀ j, j < k → gen j ∈ ledger) (hfresh : gen k ∉ ledger) :
    resolve gen ledger fb = (gen k, k + 1) ∧ (resolve gen ledger fb).2 ≤ max_attempts := by
  have h := resolve_quote_fresh gen ledger fb max_attempts 0 k hk
    (fun j hj => by simpa using hdup j hj) (by simpa using hfresh)
  have h0 : resolve gen ledger fb = (gen k, k + 1) := by
    simpa [resolve] using h
  exact ⟨h0, by rw [h0]; simpa using hk⟩

/-- Quote stream of the C2 witness: T1..T9 are already ledgered, the tenth
generate call yields the fresh T10. -/
def c2_gen : Nat → String := fun k =>
  ["T1", "T2", "T3", "T4", "T5", "T6", "T7", "T8", "T9"].getD k "T10"

/-- Ledger of the C2 witness. -/
def c2_ledger : List String := ["T1", "T2", "T3", "T4", "T5", "T6", "T7", "T8", "T9"]

/-- Witness for C2 at the max_attempts boundary: with nine ledgered candidates
followed by a fresh tenth, the resolver returns T10 on the tenth call. -/
theorem resolver_first_fresh_witness :
    9 < max_attempts ∧ resolve c2_gen c2_ledger "fb" = ("T10", 10) := by
  have h := resolver_first_fresh c2_gen c2_ledger "fb" 9 (by decide)
    (by decide) (by decide)
  refine ⟨by decide, ?_⟩
  have h9 : c2_gen 9 = "T10" := by decide
  rw [h.1, h9]

/-- C3: if every one of the max_attempts generate calls yields an
already-ledgered text, the resolver returns the fallback pool's selection after
exactly max_attempts attempts — a string of the fixed pool, accepted whether or
not it is itself already in the ledger (no ledger check guards the fallback). -/
theorem resolver_exhaustion_fallback (gen : Nat → String) (ledger : List String) (r : Nat)
    (hdup : ∀ j, j < max_attempts → gen j ∈ ledger) :
    resolve gen ledger (get_fallback_quote r) = (get_fallback_quote r, max_attempts) ∧
    get_fallback_quote r ∈ fallback_quotes := by
  have h := resolve_quote_exhaust gen ledger (get_fallback_quote r) max_attempts 0
    (fun j hj => by simpa using hdup j hj)
  exact ⟨by simpa [resolve] using h, get_fallback_quote_mem r⟩

/-- Quote stream of the C3 witness: every generate call yields the same
ledgered text. -/
def c3_gen : Nat → String := fun _ => "X"

/-- Ledger of the C3 witness: it contains the stubbed candidate and also the
fallback string itself, so the witness exercises the duplicate-fallback case. -/
def c3_ledger : List String := ["X", get_fallback_quote 0]

/-- Witness for C3: all ten candidates are ledgered, the fallback string is
itself already in the ledger, and the resolver still returns it after exactly
max_attempts attempts. -/
theorem resolver_exhaustion_fallback_witness :
    (∀ j, j < max_attempts → c3_gen j ∈ c3_ledger) ∧
    get_fallback_quote 0 ∈ c3_ledger ∧
    resolve c3_gen c3_ledger (get_fallback_quote 0) = (get_fallback_quote 0, max_attempts) ∧
    get_fallback_quote 0 ∈ fallback_quotes := by
  have h := resolver_exhaustion_fallback c3_gen c3_ledger 0 (by decide)
  exact ⟨by decide, by decide, h.1, h.2⟩

/-- C4 counterexample: when the backend call succeeds but returns an empty
text, generate_larry_quote returns the empty string, so the returned string is
not always non-empty. -/
theorem generate_empty_output :
    generate_larry_quote (BackendResult.returns "") 0 = "" := by decide

/-- C4 amended: generate_larry_quote never propagates a backend error; on a
backend error the returned value is drawn from the fallback pool and is
non-empty. (On a successful backend call the cleaned response text is returned
as-is and may be empty, so non-emptiness holds only on the error path.) -/
theorem generate_error_fallback (r : Nat) :
    generate_larry_quote BackendResult.raises r ∈ fallback_quotes ∧
    generate_larry_quote BackendResult.raises r ≠ "" := by
  have hm : generate_larry_quote BackendResult.raises r ∈ fallback_quotes :=
    get_fallback_quote_mem r
  refine ⟨hm, ?_⟩
  have hne : ∀ q ∈ fallback_quotes, q ≠ "" := by decide
  exact hne _ hm

/-- C5: when the system-of-record publish fails, post_to_bluesky returns False
and leaves the whole state (in-memory ledger and disk) unmutated, so a
subsequent is_duplicate check on a previously-unledgered quote is still false. -/
theorem publish_failure_frame (st : BotState) (t : String) (w : Bool)
    (h : t ∉ st.recent_posts) :
    post_to_bluesky false w st t = (false, st) ∧
    is_duplicate (post_to_bluesky false w st t).2.recent_posts t = false := by
  refine ⟨rfl, ?_⟩
  show is_duplicate st.recent_posts t = false
  cases hval : is_duplicate st.recent_posts t
  · rfl
  · exact absurd ((is_duplicate_iff _ _).mp hval) h

/-- Witness for C5: a failed publish of a fresh quote on an empty ledger
mutates nothing and the quote stays unledgered. -/
theorem publish_failure_frame_witness :
    "Q" ∉ (BotState.mk [] []).recent_posts ∧
    post_to_bluesky false true (BotState.mk [] []) "Q" = (false, BotState.mk [] []) ∧
    is_duplicate (post_to_bluesky false true (BotState.mk [] []) "Q").2.recent_posts "Q" = false := by
  have h := publish_failure_frame (BotState.mk [] []) "Q" true (by simp)
  exact ⟨by simp, h.1, h.2⟩

/-- C6 counterexample: an exception that is not a tweepy.TweepyException is not
caught by post_to_twitter and propagates instead of yielding a boolean. -/
theorem twitter_uncaught_exception :
    post_to_twitter true TwitterCallResult.other_exc "Q" = Except.error () := rfl

/-- C6 amended: post_to_bluesky returns a boolean for every outcome of its
publish call (its success flag equals the publish success), and post_to_twitter
returns a boolean for every response shape and every tweepy.TweepyException;
only an exception of a type other than TweepyException propagates past
post_to_twitter. -/
theorem per_target_outcomes (cfg p w : Bool) (call : TwitterCallResult)
    (q t : String) (st : BotState) (h : call ≠ TwitterCallResult.other_exc) :
    (∃ b, post_to_twitter cfg call q = Except.ok b) ∧
    (post_to_bluesky p w st t).1 = p := by
  constructor
  · cases cfg with
    | false => exact ⟨false, rfl⟩
    | true =>
      cases call with
      | response got_id =>
        cases got_id
        · exact ⟨false, rfl⟩
        · exact ⟨true, rfl⟩
      | tweepy_exc s => exact ⟨false, rfl⟩
      | other_exc => exact absurd rfl h
  · cases p <;> rfl

/-- Witness for C6 amended: a rate-limit style TweepyException yields a False
outcome from post_to_twitter, and a successful Bluesky publish reports True. -/
theorem per_target_outcomes_witness :
    TwitterCallResult.tweepy_exc (some 429) ≠ TwitterCallResult.other_exc ∧
    (∃ b, post_to_twitter true (TwitterCallResult.tweepy_exc (some 429)) "Q" = Except.ok b) ∧
    (post_to_bluesky true true (BotState.mk [] []) "Q").1 = true := by
  have h := per_target_outcomes true true true (TwitterCallResult.tweepy_exc (some 429))
    "Q" "Q" (BotState.mk [] []) (by decide)
  exact ⟨by decide, h.1, h.2⟩

/-- C7: post_quote never lets an exception escape (it is a total function in
this embedding) and its boolean means only that no unhandled error occurred:
it is false exactly when an exception (an uncaught non-TweepyException from the
Twitter call) reached post_quote's own boundary, and in particular it is true
when the Bluesky publish fails and the Twitter publish fails with a caught
TweepyException. -/
theorem post_quote_boundary (env : CycleEnv) (st : BotState) :
    ((post_quote env st).1 = false ↔
      env.twitter_client = true ∧ env.twitter_call = TwitterCallResult.other_exc) ∧
    ∀ (g : Nat → BackendResult) (rnd : Nat → Nat) (fr : Nat) (w : Bool) (st2 : BotState),
      (post_quote
        (CycleEnv.mk g rnd fr false w true (TwitterCallResult.tweepy_exc none)) st2).1 = true := by
  constructor
  · rcases env with ⟨g, rnd, fr, p, w, tc, call⟩
    cases tc with
    | false => simp [post_quote, post_to_twitter]
    | true =>
      cases call with
      | response got_id => cases got_id <;> simp [post_quote, post_to_twitter]
      | tweepy_exc s => simp [post_quote, post_to_twitter]
      | other_exc => simp [post_quote, post_to_twitter]
  · intro g rnd fr w st2
    simp [post_quote, post_to_twitter]

/-- C8: a failed cache write after a successful publish is swallowed: the
publish still reports True, the in-memory ledger keeps the appended entry, and
only the disk copy is left as it was. -/
theorem storage_failure_swallowed (st : BotState) (t : String) :
    (post_to_bluesky true false st t).1 = true ∧
    (post_to_bluesky true false st t).2.recent_posts = record st.recent_posts t ∧
    t ∈ (post_to_bluesky true false st t).2.recent_posts ∧
    (post_to_bluesky true false st t).2.disk = st.disk := by
  refine ⟨rfl, rfl, ?_, rfl⟩
  show t ∈ record st.recent_posts t
  exact mem_record_self _ _

/-- C9: immediately after a successful publish of t, is_duplicate t is true
and t is the last (most recent) ledger entry: the trim keeps the most-recent
max_cache_size entries and can never evict the entry just appended. -/
theorem publish_appends_last (st : BotState) (t : String) (w : Bool) :
    (post_to_bluesky true w st t).1 = true ∧
    is_duplicate (post_to_bluesky true w st t).2.recent_posts t = true ∧
    (post_to_bluesky true w st t).2.recent_posts.getLast? = some t := by
  have hposts : (post_to_bluesky true w st t).2.recent_posts = record st.recent_posts t := by
    cases w <;> rfl
  refine ⟨rfl, ?_, ?_⟩
  · rw [hposts]
    exact (is_duplicate_iff _ _).mpr (mem_record_self _ _)
  · rw [hposts]
    exact record_getLast _ _

/-- C10: load_recent_posts returns the stored sequence as-is, without enforcing
the max_cache_size bound (an over-long stored list yields an over-long
in-memory ledger), while a missing or unreadable store yields an empty ledger;
the bound is re-established by the trim inside the next record. -/
theorem load_unbounded (l : List String) :
    load_recent_posts (some l) = l ∧
    load_recent_posts none = [] ∧
    max_cache_size <
      (load_recent_posts (some (List.replicate (max_cache_size + 1) "x"))).length ∧
    ∀ t, (record (load_recent_posts (some l)) t).length ≤ max_cache_size := by
  refine ⟨rfl, rfl, ?_, fun t => ?_⟩
  · show max_cache_size < (List.replicate (max_cache_size + 1) "x").length
    simp
  · show (record l t).length ≤ max_cache_size
    rw [record_length]
    omega

end LarryDavidBot
